import Mathlib

/-!
Verification of the ops-copilot agent core: a shallow embedding of the
planner (`src/worker/agent/planner.py`), the retrieval tools
(`src/worker/agent/tools.py`) and the job-lifecycle task
(`src/worker/tasks.py`), together with proofs of the specified
behavioural properties.

Modelling conventions:
* Python `str` values are modelled as Lean `String` / `List Char`;
  text handling (lower-casing, `\w` word characters, whitespace) is
  modelled at ASCII scope, which is exact for ASCII inputs.
* Machine integers are modelled as `Nat`/`Int`.
* SQL timestamps are modelled as `Nat` in chronological order.  The
  Python code compares `datetime.isoformat()` strings; for the uniform
  zero-padded format produced by `isoformat` the lexicographic string
  order coincides with the chronological order modelled here.
* The database session is modelled as an explicit state value; the SQL
  queries issued by the code are modelled as operations on that state.
-/

/-! ## Python string primitives -/

/-- `l.map Char.toLower`: Python `str.lower()` on a character list (ASCII scope). -/
def lowerL (l : List Char) : List Char := l.map Char.toLower

/-- Python `str.lower()` on a `String`. -/
def pyLower (s : String) : String := String.mk (lowerL s.toList)

/-- Python substring test `pat in hay` on character lists. -/
def listInfix (pat : List Char) : List Char → Bool
  | [] => pat.isEmpty
  | c :: cs => pat.isPrefixOf (c :: cs) || listInfix pat cs

/-- Python substring test `pat in hay` on `String`s. -/
def pyContains (hay pat : String) : Bool := listInfix pat.toList hay.toList

/-- Index of the first occurrence of `pat` in a list, if any
(cf. Python `str.find`, which returns `-1` when absent). -/
def findSubPos (pat : List Char) : List Char → Option Nat
  | [] => if pat.isEmpty then some 0 else none
  | c :: cs =>
    if pat.isPrefixOf (c :: cs) then some 0 else (findSubPos pat cs).map (· + 1)

/-- Python `hay.find(pat, start)`: first index `≥ start`, or `-1`. -/
def pyFind (hay pat : List Char) (start : Nat) : Int :=
  match findSubPos pat (hay.drop start) with
  | some i => ((start + i : Nat) : Int)
  | none => -1

/-- Python `hay.rfind(c, 0, stop)` for a single character: the highest
index of `c` inside `hay[0:stop]`, or `-1`. -/
def pyRFindBefore (hay : List Char) (c : Char) (stop : Nat) : Int :=
  let pre := hay.take stop
  match pre.reverse.findIdx? (fun x => x == c) with
  | some j => ((pre.length - 1 - j : Nat) : Int)
  | none => -1

/-- Python slice `l[start:stop]` where `stop` may be negative
(counted from the end) as produced by a failed `rfind`. -/
def pySlice (l : List Char) (start : Nat) (stop : Int) : List Char :=
  let stopN : Nat := if stop < 0 then ((l.length : Int) + stop).toNat else stop.toNat
  (l.take stopN).drop start

/-- Python `str.strip()` (ASCII whitespace scope). -/
def pyStrip (l : List Char) : List Char :=
  ((l.dropWhile Char.isWhitespace).reverse.dropWhile Char.isWhitespace).reverse

/-- Python slice `s[:n]` on a `String` (codepoint count). -/
def pyTake (s : String) (n : Nat) : String := String.mk (s.toList.take n)

/-- Split a character list at every occurrence of `c` (Python
`str.split(c)` / the line decomposition used by `re.MULTILINE`). -/
def splitOnChar (c : Char) : List Char → List (List Char)
  | [] => [[]]
  | x :: xs =>
    match splitOnChar c xs with
    | [] => [[]]
    | h :: t => if x == c then [] :: h :: t else (x :: h) :: t

/-- Auxiliary run splitter: `cur` is the current run, reversed. -/
def splitRunsAux (p : Char → Bool) (cur : List Char) : List Char → List (List Char)
  | [] => if cur.isEmpty then [] else [cur.reverse]
  | c :: cs =>
    if p c then splitRunsAux p (c :: cur) cs
    else if cur.isEmpty then splitRunsAux p [] cs
    else cur.reverse :: splitRunsAux p [] cs

/-- The maximal runs of characters satisfying `p`, in order. -/
def splitRuns (p : Char → Bool) (l : List Char) : List (List Char) :=
  splitRunsAux p [] l

/-- Python regex `\w` (ASCII scope): letters, digits, underscore. -/
def isWordChar (c : Char) : Bool := c.isAlpha || c.isDigit || c == '_'

/-- `re.findall(r"\b[a-zA-Z]{3,}\b", text.lower())`.  A match of this
pattern is a maximal run of word characters that consists only of
letters and has length at least 3 (the `\b` boundaries forbid an
adjacent digit or underscore, and `[a-zA-Z]{3,}` forbids them inside). -/
def findWords (text : String) : List String :=
  ((splitRuns isWordChar (lowerL text.toList)).filter
      (fun r => 3 ≤ r.length && r.all Char.isAlpha)).map String.mk

/-- First-occurrence-order deduplication with an accumulator of already
seen elements: the model of Python `set(...)` built from a list, ordered
by first occurrence.  (`set` iteration order is unspecified in Python;
every order-insensitive use below is unaffected by this choice.) -/
def dedupAux [DecidableEq α] (seen : List α) : List α → List α
  | [] => []
  | x :: xs => if x ∈ seen then dedupAux seen xs else x :: dedupAux (x :: seen) xs

/-- First-occurrence-order deduplication (model of Python `set(...)`). -/
def dedupFirst [DecidableEq α] (l : List α) : List α := dedupAux [] l

/-! ## A stable descending sort

`results.sort(key=..., reverse=True)` in Python is a stable sort into
descending key order: the output is descending in the key, and elements
with equal keys keep their input order.  Those two properties (together
with being a permutation) determine the output uniquely, so any stable
algorithm is a faithful model; we use insertion sort.  `insertDesc`
places `x` immediately before the first element whose key is `≤` the
key of `x`, which keeps equal-key elements in input order. -/

section StableSort

variable {α : Type} {K : Type} [LinearOrder K]

/-- Insert `x` into a descending-sorted list, before the first element
whose key does not exceed `key x` (stable for equal keys). -/
def insertDesc (key : α → K) (x : α) : List α → List α
  | [] => [x]
  | y :: ys => if key y ≤ key x then x :: y :: ys else y :: insertDesc key x ys

/-- Stable insertion sort into descending key order: the model of
Python `list.sort(key=key, reverse=True)`. -/
def sortDesc (key : α → K) : List α → List α
  | [] => []
  | x :: xs => insertDesc key x (sortDesc key xs)

end StableSort

/-! ## Plan data model

Modelled from the spec: the `PlanStep` / `AgentPlan` pydantic schemas
live in `api/schemas.py`, which is not under `src/`; their shape is
taken from spec §3 (`Step`, `Plan`) and from the field names used by
`src/worker/agent/planner.py`. -/

/-- The closed set of tool names a plan step may invoke (spec §3). -/
inductive ToolName where
  | search_docs
  | query_incidents
deriving DecidableEq, Repr

/-- One plan step: `{step_number, action, tool, tool_input}` (spec §3). -/
structure PlanStep where
  step_number : Nat
  action : String
  tool : Option ToolName
  tool_input : Option String
deriving DecidableEq, Repr

/-- A plan: `{reasoning, steps}` (spec §3). -/
structure AgentPlan where
  reasoning : String
  steps : List PlanStep
deriving DecidableEq, Repr

/-! ## Planner (`src/worker/agent/planner.py`) -/

/-- `DOC_KEYWORDS` (planner.py lines 15-39). -/
def DOC_KEYWORDS : List String :=
  ["how", "what", "guide", "tutorial", "troubleshoot", "debug", "fix", "solve",
   "help", "explain", "documentation", "runbook", "procedure", "steps", "deploy",
   "deployment", "database", "connection", "timeout", "error", "configure",
   "setup", "install"]

/-- `INCIDENT_KEYWORDS` (planner.py lines 42-59). -/
def INCIDENT_KEYWORDS : List String :=
  ["incident", "outage", "issue", "problem", "failure", "down", "alert",
   "critical", "recent", "past", "history", "similar", "previous", "resolved",
   "root cause", "postmortem"]

/-- The stop-word set of `_extract_keywords` (planner.py lines 67-98). -/
def stop_words : List String :=
  ["the", "and", "for", "are", "but", "not", "you", "all", "can", "had",
   "her", "was", "one", "our", "out", "has", "have", "been", "would", "could",
   "there", "their", "will", "when", "who", "with", "this", "that", "from",
   "how"]

/-- `_extract_keywords` (planner.py lines 62-99):
`re.findall(r"\b[a-zA-Z]{3,}\b", text.lower())` filtered by the
stop-word set, preserving order and duplicates. -/
def _extract_keywords (text : String) : List String :=
  (findWords text).filter (fun w => !(stop_words.contains w))

/-- `_needs_docs` (planner.py lines 102-105): some documentation keyword
is a substring of the lower-cased text. -/
def _needs_docs (text : String) : Bool :=
  DOC_KEYWORDS.any (fun kw => pyContains (pyLower text) kw)

/-- `_needs_incidents` (planner.py lines 108-111). -/
def _needs_incidents (text : String) : Bool :=
  INCIDENT_KEYWORDS.any (fun kw => pyContains (pyLower text) kw)

/-- The condensed query of `_create_deterministic_plan` (planner.py
line 120): `" ".join(keywords[:5]) if keywords else text[:50]`. -/
def condensedQuery (text : String) : String :=
  let keywords := _extract_keywords text
  if keywords.isEmpty then pyTake text 50
  else String.intercalate " " (keywords.take 5)

/-- `_create_deterministic_plan` (planner.py lines 114-173).  The
running `step_num` counter of the imperative code is translated into
the explicit values `n1`, `n2`. -/
def _create_deterministic_plan (text : String) : AgentPlan :=
  let keywords := _extract_keywords text
  let query := condensedQuery text
  let needs_docs0 := _needs_docs text
  let needs_incidents0 := _needs_incidents text
  let needs_docs := if !needs_docs0 && !needs_incidents0 then true else needs_docs0
  let needs_incidents := if !needs_docs0 && !needs_incidents0 then true else needs_incidents0
  let s1 : List PlanStep :=
    if needs_docs then
      [{ step_number := 1, action := "Search documentation for relevant runbooks",
         tool := some ToolName.search_docs, tool_input := some query }]
    else []
  let n1 : Nat := if needs_docs then 2 else 1
  let s2 : List PlanStep :=
    if needs_incidents then
      s1 ++ [{ step_number := n1, action := "Query incident database for related incidents",
               tool := some ToolName.query_incidents, tool_input := some query }]
    else s1
  let n2 : Nat := if needs_incidents then n1 + 1 else n1
  let steps := s2 ++
    [{ step_number := n2, action := "Synthesize findings and provide recommendation",
       tool := none, tool_input := none }]
  let reasoning :=
    "Based on the request, I identified the following needs: " ++
    (if needs_docs then "documentation search" else "") ++
    (if needs_docs && needs_incidents then " and " else "") ++
    (if needs_incidents then "incident history lookup" else "") ++
    ". Key topics: " ++
    (if keywords.isEmpty then "general inquiry"
     else String.intercalate ", " (keywords.take 5)) ++ "."
  { reasoning := reasoning, steps := steps }

/-- The environment read by `create_plan` / `_create_llm_plan`
(planner.py lines 176-258): the `USE_REAL_LLM` flag, the optional
`LLM_API_KEY` credential, and the outcome of the guarded block of
`_create_llm_plan` (HTTP call, status check, JSON decode and schema
validation collapsed into one `Except`: `.ok p` is a response that
parsed and validated to plan `p`, `.error e` is any raised exception —
network error, non-2xx status, malformed JSON or schema mismatch). -/
structure LlmEnv where
  use_real_llm : Bool
  api_key : Option String
  llm_response : Except String AgentPlan

/-- `_create_llm_plan` (planner.py lines 176-236): missing credential
falls back immediately; any exception from the HTTP/parse/validate
block is caught and falls back; a valid parsed plan is returned as-is.
The function is total: no failure propagates to the caller. -/
def _create_llm_plan (env : LlmEnv) (text : String) : AgentPlan :=
  match env.api_key with
  | none => _create_deterministic_plan text
  | some _ =>
    match env.llm_response with
    | Except.ok plan => plan
    | Except.error _ => _create_deterministic_plan text

/-- `create_plan` (planner.py lines 239-258). -/
def create_plan (env : LlmEnv) (text : String) : AgentPlan :=
  if env.use_real_llm then _create_llm_plan env text
  else _create_deterministic_plan text

/-! ## Document search tool (`src/worker/agent/tools.py`, `search_docs`)

The corpus state is the directory listing of `RUNBOOKS_DIR`: `none`
models a missing directory, `some files` an existing directory whose
entries are `(filename, content)` pairs in enumeration order.  Files
whose read raises are skipped by the code; the listing here contains
the readable files. -/

/-- One `search_docs` result record (tools.py lines 58-66). -/
structure DocHit where
  filename : String
  title : String
  snippet : String
  key_points : List String
  relevance_score : Nat
deriving DecidableEq, Repr

/-- The query keyword set of `search_docs` (tools.py line 33):
`set(re.findall(r"\b[a-zA-Z]{3,}\b", query.lower()))` — note: no
stop-word filtering, unlike the planner's `_extract_keywords`. -/
def docKeywords (query : String) : List String := dedupFirst (findWords query)

/-- `matches` (tools.py line 45): the number of distinct query keywords
occurring as substrings of the lower-cased document body. -/
def countKw (kws : List String) (textLower : List Char) : Nat :=
  (kws.filter (fun kw => listInfix kw.toList textLower)).length

/-- The remainder of a line after the `[-*]` marker of tools.py line
107, if the marker is present. -/
def bulletRest : List Char → Option (List Char)
  | c :: rest => if c == '-' || c == '*' then some rest else none
  | [] => none

/-- The remainder of a line after the `\d+\.` marker of tools.py line
108, if the marker is present. -/
def numberedRest (ln : List Char) : Option (List Char) :=
  let ds := ln.takeWhile Char.isDigit
  let rest := ln.dropWhile Char.isDigit
  if ds.isEmpty then none
  else
    match rest with
    | '.' :: rest2 => some rest2
    | _ => none

/-- The remainder of a line after the `#` marker of tools.py line 49,
if the marker is present. -/
def titleRest : List Char → Option (List Char)
  | '#' :: rest => some rest
  | _ => none

/-- `re.findall(r"^M\s+(.+)$", content, re.MULTILINE)` for a marker
`M`, over the lines of the content.  The `\s+` after the marker is
greedy and may cross newlines: when the marker line holds nothing but
whitespace, the capture is the remainder (after leading whitespace) of
the next line carrying any non-whitespace character, and scanning
resumes after that line.  At the end of the content the engine
backtracks one whitespace character into the `(.+)` capture, which
succeeds only when at least two whitespace characters were consumed
and the last one is not a newline.  The first argument is `some wAcc`
while a match is crossing lines, with `wAcc` the whitespace consumed
so far; `none` during normal scanning. -/
def scanAux (markerRest : List Char → Option (List Char)) :
    Option (List Char) → List (List Char) → List String
  | none, [] => []
  | none, ln :: lns =>
    match markerRest ln with
    | none => scanAux markerRest none lns
    | some rest =>
      let w := rest.takeWhile Char.isWhitespace
      let body := rest.dropWhile Char.isWhitespace
      if body.isEmpty then scanAux markerRest (some rest) lns
      else if w.isEmpty then scanAux markerRest none lns
      else String.mk body :: scanAux markerRest none lns
  | some wAcc, [] =>
    if 2 ≤ wAcc.length && !(wAcc.getLastD ' ' == '\n') then
      [String.mk [wAcc.getLastD ' ']]
    else []
  | some wAcc, ln :: lns =>
    let b2 := ln.dropWhile Char.isWhitespace
    if b2.isEmpty then scanAux markerRest (some (wAcc ++ '\n' :: ln)) lns
    else String.mk b2 :: scanAux markerRest none lns

/-- All captures of `^M\s+(.+)$` over the content's lines, in order. -/
def scanCaptures (markerRest : List Char → Option (List Char))
    (lines : List (List Char)) : List String :=
  scanAux markerRest none lines

/-- `_extract_key_points` (tools.py lines 101-115): at most 5 bullet
captures, then at most 5 numbered captures, at most 10 in total. -/
def _extract_key_points (content : List Char) : List String :=
  let lines := splitOnChar '\n' content
  ((scanCaptures bulletRest lines).take 5 ++
   (scanCaptures numberedRest lines).take 5).take 10

/-- The keyword loop of `_extract_snippet` (tools.py lines 82-98),
iterating the keyword set in the modelled first-occurrence order
(Python's `set` iteration order is unspecified). -/
def snippetLoop (content contentLower : List Char) : List String → String
  | [] => String.mk (pyStrip (content.take 200)) ++ "..."
  | kw :: rest =>
    match findSubPos kw.toList contentLower with
    | none => snippetLoop content contentLower rest
    | some pos =>
      let n := content.length
      let start0 : Nat := pos - 100
      let end0 : Nat := min n (pos + 100)
      let start1 : Nat := if 0 < start0 then (pyFind content [' '] start0 + 1).toNat else start0
      let end1 : Int := if end0 < n then pyRFindBefore content ' ' end0 else (end0 : Int)
      let snip := String.mk (pyStrip (pySlice content start1 end1))
      if 0 < start1 then "..." ++ snip ++ "..." else snip ++ "..."

/-- `_extract_snippet` (tools.py lines 78-98) with the default
`context_chars = 200`. -/
def _extract_snippet (content : List Char) (keywords : List String) : String :=
  snippetLoop content (lowerL content) keywords

/-- `Path(filename).stem`: the name without its final suffix; a leading
dot alone does not start a suffix. -/
def stem (name : String) : String :=
  let l := name.toList
  let i := pyRFindBefore l '.' l.length
  if 0 < i then String.mk (l.take i.toNat) else name

/-- `RUNBOOKS_DIR.glob("*.md")` (tools.py line 39): the directory
entries whose name ends in `".md"`, in enumeration order. -/
def globMd (files : List (String × String)) : List (String × String) :=
  files.filter (fun f => List.isSuffixOf ".md".toList f.1.toList)

/-- The per-file body of the loop (tools.py lines 39-70): score the
document; if any keyword matches, build the hit record. -/
def docCandidates (query : String) (files : List (String × String)) : List DocHit :=
  let kws := docKeywords query
  (globMd files).filterMap (fun f =>
    let content := f.2.toList
    let contentLower := lowerL content
    let nMatches := countKw kws contentLower
    if 0 < nMatches then
      some { filename := f.1,
             title := ((scanCaptures titleRest (splitOnChar '\n' content)).head?).getD (stem f.1),
             snippet := _extract_snippet content kws,
             key_points := _extract_key_points content,
             relevance_score := nMatches }
    else none)

/-- `search_docs` (tools.py lines 20-75): empty on a missing corpus
directory; otherwise the candidates, stable-sorted by score descending,
truncated to 5. -/
def search_docs (query : String) : Option (List (String × String)) → List DocHit
  | none => []
  | some files => (sortDesc (fun h => h.relevance_score) (docCandidates query files)).take 5

/-! ## Incident search tool (`src/worker/agent/tools.py`, `query_incidents`)

The incident storage is modelled as a `List Incident` (the table rows,
in the storage's internal order).  The SQL queries the code issues are
modelled as `DbOp` operations on that state; `ORDER BY created_at DESC`
leaves the relative order of equal timestamps unspecified, modelled
here as stable with respect to the storage order. -/

/-- An incident row (`src/api/models.py`, `Incident`).  `created_at` is
a non-nullable column with a server-side default, so it is always
present; nullable columns are `Option`s. -/
structure Incident where
  id : String
  title : String
  description : Option String
  severity : String
  status : String
  service : Option String
  root_cause : Option String
  resolution : Option String
  created_at : Nat
  resolved_at : Option Nat
  tags : Option (List String)
deriving DecidableEq, Repr

/-- Model of `datetime.isoformat()` for a timestamp: a digit string.
Like a real isoformat string it contains no run of 3 or more letters,
so no query keyword (a word of 3+ letters) can occur inside it. -/
def isoStr (n : Nat) : String := toString n

/-- One `query_incidents` result record (tools.py lines 157-171 plus
the `relevance_score` added at line 182). -/
structure IncidentHit where
  id : String
  title : String
  description : Option String
  severity : String
  status : String
  service : Option String
  root_cause : Option String
  resolution : Option String
  created_at : Nat
  resolved_at : Option Nat
  tags : Option (List String)
  relevance_score : Nat
deriving DecidableEq, Repr

/-- Keep a string value only if it is truthy (non-empty): the
`if v and isinstance(v, str)` guard of tools.py line 177 for a string
field. -/
def keepStr (s : String) : List String := if s.isEmpty then [] else [s]

/-- The same guard for a nullable string field. -/
def keepOptStr : Option String → List String
  | none => []
  | some s => keepStr s

/-- `searchable_text` (tools.py lines 176-178): the space-join of the
lower-cased truthy string values of the result record, in dict
insertion order — id, title, description, severity, status, service,
root_cause, resolution, then the isoformat timestamps.  `tags` is a
list, not a string, so it is excluded; `relevance_score` has not been
added to the record yet when this is computed. -/
def hitSearchable (h : IncidentHit) : String :=
  String.intercalate " " (List.map pyLower
    (keepStr h.id ++ keepStr h.title ++ keepOptStr h.description ++
     keepStr h.severity ++ keepStr h.status ++ keepOptStr h.service ++
     keepOptStr h.root_cause ++ keepOptStr h.resolution ++
     keepStr (isoStr h.created_at) ++
     (match h.resolved_at with
      | some t => keepStr (isoStr t)
      | none => [])))

/-- `Incident.<field>.ilike(f"%{kw}%")` (tools.py lines 142-146) for one
keyword: case-insensitive containment in one of the five searched
columns; a NULL column never matches. -/
def incMatchesKw (kw : String) (i : Incident) : Bool :=
  listInfix kw.toList (pyLower i.title).toList ||
  (match i.description with
   | some d => listInfix kw.toList (pyLower d).toList
   | none => false) ||
  (match i.service with
   | some s => listInfix kw.toList (pyLower s).toList
   | none => false) ||
  (match i.root_cause with
   | some s => listInfix kw.toList (pyLower s).toList
   | none => false) ||
  (match i.resolution with
   | some s => listInfix kw.toList (pyLower s).toList
   | none => false)

/-- The database operations `query_incidents` may issue against the
incident storage.  The two `SELECT`s are the queries of tools.py lines
136 and 148-154; the mutating operations exist in the model so that
read-only-ness is a fact about which operations the code issues, not a
tautology of the state type. -/
inductive DbOp where
  | selectRecent (limit : Nat)
  | selectMatching (kws : List String) (limit : Nat)
  | insertIncident (i : Incident)
  | deleteIncident (id : String)
deriving DecidableEq, Repr

/-- Run one operation: `(result rows, state after)`. -/
def runOp (db : List Incident) : DbOp → List Incident × List Incident
  | DbOp.selectRecent n => ((sortDesc (fun i => i.created_at) db).take n, db)
  | DbOp.selectMatching kws n =>
      ((sortDesc (fun i => i.created_at)
          (db.filter (fun i => kws.any (fun kw => incMatchesKw kw i)))).take n, db)
  | DbOp.insertIncident i => ([], db ++ [i])
  | DbOp.deleteIncident ident => ([], db.filter (fun i => !(i.id == ident)))

/-- Run a list of operations, threading the state. -/
def runOps (db : List Incident) : List DbOp → List Incident
  | [] => db
  | op :: rest => runOps (runOp db op).2 rest

/-- The operations one `query_incidents` call issues (tools.py lines
134-154): exactly one `SELECT`, chosen by whether the keyword set is
empty. -/
def query_incidents_ops (query : String) : List DbOp :=
  let kws := docKeywords query
  if kws.isEmpty then [DbOp.selectRecent 5] else [DbOp.selectMatching kws 10]

/-- Build the result record for one fetched incident (tools.py lines
156-171), then compute and store its relevance score (lines 173-182):
the count of keywords occurring in the searchable text. -/
def mkIncidentHit (kws : List String) (i : Incident) : IncidentHit :=
  let rec0 : IncidentHit :=
    { id := i.id, title := i.title, description := i.description,
      severity := i.severity, status := i.status, service := i.service,
      root_cause := i.root_cause, resolution := i.resolution,
      created_at := i.created_at, resolved_at := i.resolved_at,
      tags := i.tags, relevance_score := 0 }
  { rec0 with relevance_score := countKw kws (hitSearchable rec0).toList }

/-- `query_incidents` (tools.py lines 118-187): tokenize the query
(line 132, the same expression as `search_docs` line 33); fetch recent
or matching incidents; build scored records; stable-sort by
`(relevance_score, created_at)` descending (line 185, a lexicographic
tuple key); return the top 5. -/
def query_incidents (query : String) (db : List Incident) : List IncidentHit :=
  let kws := docKeywords query
  let fetched :=
    if kws.isEmpty then (runOp db (DbOp.selectRecent 5)).1
    else (runOp db (DbOp.selectMatching kws 10)).1
  let results := fetched.map (mkIncidentHit kws)
  (sortDesc (fun h => toLex (h.relevance_score, h.created_at)) results).take 5

/-! ## Job lifecycle (`src/worker/tasks.py`, `process_request`)

The request row and its persistence are modelled as an explicit
two-copy state: `committed` is what the database holds, `session` the
SQLAlchemy session's pending view.  `commit` publishes the session,
`rollback` restores it from the committed state.  The outcomes of
`create_plan` and `execute_plan` are parameters (`Except.error e`
models a raised exception with message `e`); the executor lives in
`worker/agent/executor.py`, which is not under `src/`, and its result
payloads are opaque to `tasks.py` (persisted via `model_dump`), so they
are modelled as abstract serialized strings. -/

/-- Request states.  Modelled from the spec: the `RequestStatus` enum
lives in `api/schemas.py`, not under `src/`; spec §4.7 gives
`queued → running → {done, failed}`. -/
inductive ReqStatus where
  | queued
  | running
  | done
  | failed
deriving DecidableEq, Repr

/-- The persisted request row (`src/api/models.py`, `Request`),
restricted to the fields `process_request` touches. -/
structure RequestRow where
  text : String
  status : ReqStatus
  plan : Option AgentPlan
  tool_calls : List String
  result : Option String
  error : Option String
  started_at : Option Nat
  completed_at : Option Nat
deriving DecidableEq, Repr

/-- A fresh `queued` row for request text `t` (column defaults of
`src/api/models.py`). -/
def freshRow (t : String) : RequestRow :=
  { text := t, status := ReqStatus.queued, plan := none, tool_calls := [],
    result := none, error := none, started_at := none, completed_at := none }

/-- Database-session state: committed row and pending session view. -/
structure DbSession where
  committed : RequestRow
  session : RequestRow
deriving DecidableEq, Repr

/-- `db.commit()`: publish the session's pending writes. -/
def commitOp (s : DbSession) : DbSession := { committed := s.session, session := s.session }

/-- `db.rollback()`: discard pending writes, restoring the committed
state.  Writes committed earlier are untouched. -/
def rollbackOp (s : DbSession) : DbSession := { committed := s.committed, session := s.committed }

/-- The executor's success payload as persisted by tasks.py lines
59-60 (serialized result and tool-call log). -/
structure ExecOutput where
  result : String
  tool_calls : List String
deriving DecidableEq, Repr

/-- The `except` handler of `process_request` (tasks.py lines 68-79):
roll back, mark failed, persist the error and completion time, commit;
the exception is then re-raised. -/
def failHandler (s : DbSession) (e : String) (tDone : Nat) : DbSession :=
  let s1 := rollbackOp s
  commitOp { s1 with session :=
    { s1.session with status := ReqStatus.failed, error := some e,
                      completed_at := some tDone } }

/-- `process_request` (tasks.py lines 17-79) for an existing request
row: mark running and commit; create the plan, persist it and commit;
execute; on success persist result, tool calls, `done` status and
completion time; on any exception run the handler and re-raise (the
returned `Except.error` models the re-raise). -/
def process_request (s0 : DbSession) (planOut : Except String AgentPlan)
    (execOut : Except String ExecOutput) (tStart tDone : Nat) :
    DbSession × Except String ExecOutput :=
  let s1 := commitOp { s0 with session :=
    { s0.session with status := ReqStatus.running, started_at := some tStart } }
  match planOut with
  | Except.error e => (failHandler s1 e tDone, Except.error e)
  | Except.ok plan =>
    let s2 := commitOp { s1 with session := { s1.session with plan := some plan } }
    match execOut with
    | Except.error e => (failHandler s2 e tDone, Except.error e)
    | Except.ok r =>
      (commitOp { s2 with session :=
        { s2.session with result := some r.result, tool_calls := r.tool_calls,
                          status := ReqStatus.done, completed_at := some tDone } },
       Except.ok r)

/-! ## Concrete instances used by witnesses and counterexamples -/

/-- The candidate list of a corpus state (empty for a missing
directory): the pre-sort enumeration-order candidates of
`search_docs`. -/
def corpusCandidates (query : String) : Option (List (String × String)) → List DocHit
  | none => []
  | some files => docCandidates query files

/-- A two-incident storage used by concrete witnesses. -/
def dbW : List Incident :=
  [{ id := "INC-1", title := "Database outage", description := some "connection pool exhausted",
     severity := "high", status := "resolved", service := some "api",
     root_cause := some "pool misconfigured", resolution := some "raise pool size",
     created_at := 10, resolved_at := some 12, tags := none },
   { id := "INC-2", title := "Cache latency", description := none,
     severity := "low", status := "open", service := none,
     root_cause := none, resolution := none,
     created_at := 20, resolved_at := none, tags := some ["cache"] }]

/-- A small corpus used by concrete witnesses. -/
def corpusW : List (String × String) :=
  [("z.md", "# Z\ndatabase notes"),
   ("a.md", "# A\ndatabase timeout notes"),
   ("b.md", "# B\ndatabase info"),
   ("c.txt", "database timeout database")]

/-- The plan of the C8 counterexample run. -/
def c8_plan : AgentPlan := _create_deterministic_plan "fix database timeout"

/-- The C8 counterexample run: planning succeeds (and the plan is
committed), execution raises. -/
def c8_run : DbSession × Except String ExecOutput :=
  process_request ⟨freshRow "fix database timeout", freshRow "fix database timeout"⟩
    (Except.ok c8_plan) (Except.error "tool exception") 3 7

/-! ## Proofs -/

theorem mem_dedupAux [DecidableEq α] (l : List α) (a : α) :
    ∀ seen, a ∈ dedupAux seen l ↔ a ∈ l ∧ a ∉ seen := by
  induction l with
  | nil => intro seen; simp [dedupAux]
  | cons x xs ih =>
    intro seen
    by_cases hx : x ∈ seen
    · rw [dedupAux, if_pos hx, ih]
      constructor
      · rintro ⟨h1, h2⟩; exact ⟨List.mem_cons_of_mem _ h1, h2⟩
      · rintro ⟨h1, h2⟩
        rcases List.mem_cons.mp h1 with rfl | h1
        · exact absurd hx h2
        · exact ⟨h1, h2⟩
    · rw [dedupAux, if_neg hx]
      simp only [List.mem_cons, ih, List.mem_cons]
      by_cases hax : a = x
      · subst hax; tauto
      · tauto

theorem mem_dedupFirst [DecidableEq α] (l : List α) (a : α) :
    a ∈ dedupFirst l ↔ a ∈ l := by
  simp [dedupFirst, mem_dedupAux]

section StableSort

variable {α : Type} {K : Type} [LinearOrder K]

theorem mem_insertDesc (key : α → K) (x a : α) (l : List α) :
    a ∈ insertDesc key x l ↔ a = x ∨ a ∈ l := by
  induction l with
  | nil => simp [insertDesc]
  | cons y ys ih =>
    by_cases h : key y ≤ key x
    · simp [insertDesc, if_pos h]
    · simp only [insertDesc, if_neg h, List.mem_cons, ih]
      tauto

theorem mem_sortDesc (key : α → K) (a : α) (l : List α) :
    a ∈ sortDesc key l ↔ a ∈ l := by
  induction l with
  | nil => simp [sortDesc]
  | cons x xs ih => simp [sortDesc, mem_insertDesc, ih]

theorem pairwise_insertDesc (key : α → K) (x : α) (l : List α)
    (h : l.Pairwise (fun p q => key q ≤ key p)) :
    (insertDesc key x l).Pairwise (fun p q => key q ≤ key p) := by
  induction l with
  | nil => simp [insertDesc]
  | cons y ys ih =>
    rcases List.pairwise_cons.mp h with ⟨hy, hys⟩
    by_cases hc : key y ≤ key x
    · rw [insertDesc, if_pos hc]
      refine List.pairwise_cons.mpr ⟨?_, h⟩
      intro z hz
      rcases List.mem_cons.mp hz with rfl | hz
      · exact hc
      · exact le_trans (hy z hz) hc
    · rw [insertDesc, if_neg hc]
      refine List.pairwise_cons.mpr ⟨?_, ih hys⟩
      intro z hz
      rcases (mem_insertDesc key x z ys).mp hz with rfl | hz
      · exact le_of_lt (lt_of_not_le hc)
      · exact hy z hz

theorem pairwise_sortDesc (key : α → K) (l : List α) :
    (sortDesc key l).Pairwise (fun p q => key q ≤ key p) := by
  induction l with
  | nil => simp [sortDesc]
  | cons x xs ih => exact pairwise_insertDesc key x _ ih

theorem filter_insertDesc (key : α → K) (x : α) (l : List α) (k : K) :
    (insertDesc key x l).filter (fun a => decide (key a = k)) =
      if key x = k then x :: l.filter (fun a => decide (key a = k))
      else l.filter (fun a => decide (key a = k)) := by
  induction l with
  | nil => by_cases h : key x = k <;> simp [insertDesc, List.filter, h]
  | cons y ys ih =>
    by_cases hc : key y ≤ key x
    · rw [insertDesc, if_pos hc]
      by_cases hk : key x = k <;> simp [List.filter_cons, hk]
    · rw [insertDesc, if_neg hc]
      have hlt : key x < key y := lt_of_not_le hc
      by_cases hk : key x = k
      · have hyk : ¬ key y = k := by
          intro hy; exact absurd (hk ▸ hy ▸ hlt) (lt_irrefl _)
        simp [List.filter_cons, hk, hyk, ih]
      · by_cases hyk : key y = k <;> simp [List.filter_cons, hk, hyk, ih]

theorem filter_sortDesc (key : α → K) (l : List α) (k : K) :
    (sortDesc key l).filter (fun a => decide (key a = k)) =
      l.filter (fun a => decide (key a = k)) := by
  induction l with
  | nil => simp [sortDesc]
  | cons x xs ih =>
    rw [sortDesc, filter_insertDesc]
    by_cases hk : key x = k <;> simp [List.filter_cons, hk, ih]

theorem insertDesc_of_forall_le (key : α → K) (x : α) (l : List α)
    (h : ∀ a ∈ l, key a ≤ key x) : insertDesc key x l = x :: l := by
  cases l with
  | nil => rfl
  | cons y ys => rw [insertDesc, if_pos (h y (List.mem_cons_self y ys))]

/-- Sorting a list that is already descending in the key leaves it unchanged. -/
theorem sortDesc_eq_self (key : α → K) (l : List α)
    (h : l.Pairwise (fun p q => key q ≤ key p)) : sortDesc key l = l := by
  induction l with
  | nil => rfl
  | cons x xs ih =>
    rcases List.pairwise_cons.mp h with ⟨hx, hxs⟩
    rw [sortDesc, ih hxs, insertDesc_of_forall_le key x xs hx]

end StableSort

/-! ## Claims C1 and C2: deterministic plan shape -/

/-- **C1.** For every input text, with deterministic planning selected
(`USE_REAL_LLM` false), `create_plan(text).steps` is non-empty, its
last step has `tool = none`, every step before the last has a non-none
tool (`search_docs` or `query_incidents`), and the step numbers are
1-based and sequential (`map step_number = [1, …, length]`). -/
theorem plan_shape_c1 (env : LlmEnv) (text : String)
    (henv : env.use_real_llm = false) :
    (create_plan env text).steps ≠ [] ∧
    (∃ s, (create_plan env text).steps.getLast? = some s ∧ s.tool = none) ∧
    (∀ s ∈ (create_plan env text).steps.dropLast,
        s.tool = some ToolName.search_docs ∨ s.tool = some ToolName.query_incidents) ∧
    (create_plan env text).steps.map (fun s => s.step_number) =
      List.range' 1 (create_plan env text).steps.length := by
  rw [create_plan, henv]
  simp only [Bool.false_eq_true, if_false]
  cases hb1 : _needs_docs text <;> cases hb2 : _needs_incidents text <;>
    simp [_create_deterministic_plan, hb1, hb2, List.range']

/-- Witness for C1 at a concrete environment and input. -/
theorem plan_shape_c1_witness :
    (create_plan ⟨false, none, Except.error "no llm"⟩ "restart the ingest node").steps ≠ [] ∧
    (∃ s, (create_plan ⟨false, none, Except.error "no llm"⟩ "restart the ingest node").steps.getLast? =
        some s ∧ s.tool = none) ∧
    (∀ s ∈ (create_plan ⟨false, none, Except.error "no llm"⟩ "restart the ingest node").steps.dropLast,
        s.tool = some ToolName.search_docs ∨ s.tool = some ToolName.query_incidents) ∧
    (create_plan ⟨false, none, Except.error "no llm"⟩ "restart the ingest node").steps.map
        (fun s => s.step_number) =
      List.range' 1 (create_plan ⟨false, none, Except.error "no llm"⟩ "restart the ingest node").steps.length :=
  plan_shape_c1 ⟨false, none, Except.error "no llm"⟩ "restart the ingest node" rfl

/-- **C2.** If the lower-cased text contains no documentation-intent
keyword and no incident-intent keyword, the deterministic plan is
exactly a `search_docs` step, then a `query_incidents` step — each with
the condensed query as `tool_input` — then the terminal synthesis step;
and the condensed query is the first 5 extracted keywords joined by
spaces, or the first 50 characters of the raw text if no keyword was
extracted. -/
theorem plan_fail_open_c2 (env : LlmEnv) (text : String)
    (henv : env.use_real_llm = false)
    (hd : _needs_docs text = false) (hi : _needs_incidents text = false) :
    (create_plan env text).steps =
      [{ step_number := 1, action := "Search documentation for relevant runbooks",
         tool := some ToolName.search_docs, tool_input := some (condensedQuery text) },
       { step_number := 2, action := "Query incident database for related incidents",
         tool := some ToolName.query_incidents, tool_input := some (condensedQuery text) },
       { step_number := 3, action := "Synthesize findings and provide recommendation",
         tool := none, tool_input := none }] ∧
    condensedQuery text =
      (if (_extract_keywords text).isEmpty then pyTake text 50
       else String.intercalate " " ((_extract_keywords text).take 5)) := by
  rw [create_plan, henv]
  simp only [Bool.false_eq_true, if_false]
  exact ⟨by simp [_create_deterministic_plan, hd, hi], rfl⟩

/-- Witness for C2: a text containing no vocabulary word of either
intent list; the condensed query is its two extracted keywords. -/
theorem plan_fail_open_c2_witness :
    (create_plan ⟨false, none, Except.error "no llm"⟩ "xyz abc").steps =
      [{ step_number := 1, action := "Search documentation for relevant runbooks",
         tool := some ToolName.search_docs, tool_input := some (condensedQuery "xyz abc") },
       { step_number := 2, action := "Query incident database for related incidents",
         tool := some ToolName.query_incidents, tool_input := some (condensedQuery "xyz abc") },
       { step_number := 3, action := "Synthesize findings and provide recommendation",
         tool := none, tool_input := none }] ∧
    condensedQuery "xyz abc" =
      (if (_extract_keywords "xyz abc").isEmpty then pyTake "xyz abc" 50
       else String.intercalate " " ((_extract_keywords "xyz abc").take 5)) :=
  plan_fail_open_c2 ⟨false, none, Except.error "no llm"⟩ "xyz abc" rfl (by decide) (by decide)

/-! ## Claims C3, C4, C10: document search -/

/-- Every candidate has a positive score and (being drawn from the
glob) an `.md` filename. -/
theorem mem_docCandidates (query : String) (files : List (String × String))
    (h : DocHit) (hh : h ∈ docCandidates query files) :
    1 ≤ h.relevance_score ∧ List.isSuffixOf ".md".toList h.filename.toList = true := by
  obtain ⟨f, hf, heq⟩ := List.mem_filterMap.mp hh
  have hmd : List.isSuffixOf ".md".toList f.1.toList = true :=
    (List.mem_filter.mp hf).2
  dsimp only at heq
  split at heq
  · rename_i hpos
    cases heq
    exact ⟨hpos, hmd⟩
  · exact absurd heq (by simp)

/-- Membership in the `search_docs` output comes from the candidate list. -/
theorem mem_search_docs (query : String) (files : List (String × String))
    (h : DocHit) (hh : h ∈ search_docs query (some files)) :
    h ∈ docCandidates query files := by
  rw [search_docs] at hh
  have h1 := List.mem_of_mem_take hh
  exact (mem_sortDesc _ _ _).mp h1

/-- **C3.** For every query and corpus state, `search_docs` returns at
most 5 hits, every hit has `relevance_score ≥ 1`, the output is sorted
by `relevance_score` descending, and ties keep the original directory
enumeration order: for every score value `k`, the returned hits of
score `k` form, in order, a prefix of the candidates of score `k` in
enumeration order (the stability of `list.sort(..., reverse=True)`). -/
theorem search_docs_ranked_c3 (query : String) (corpus : Option (List (String × String))) :
    (search_docs query corpus).length ≤ 5 ∧
    (∀ h ∈ search_docs query corpus, 1 ≤ h.relevance_score) ∧
    (search_docs query corpus).Pairwise
      (fun a b => b.relevance_score ≤ a.relevance_score) ∧
    (∀ k : Nat, (search_docs query corpus).filter (fun h => decide (h.relevance_score = k)) <+:
        (corpusCandidates query corpus).filter (fun h => decide (h.relevance_score = k))) := by
  cases corpus with
  | none =>
    refine ⟨by simp [search_docs], by simp [search_docs], by simp [search_docs], ?_⟩
    intro k
    simp [search_docs, corpusCandidates]
  | some files =>
    refine ⟨?_, ?_, ?_, ?_⟩
    · rw [search_docs, List.length_take]
      exact min_le_left _ _
    · intro h hh
      exact (mem_docCandidates query files h (mem_search_docs query files h hh)).1
    · rw [search_docs]
      exact List.Pairwise.sublist (List.take_sublist _ _)
        (pairwise_sortDesc (fun h : DocHit => h.relevance_score) (docCandidates query files))
    · intro k
      have hpre : (search_docs query (some files)).filter
          (fun h => decide (h.relevance_score = k)) <+:
          (sortDesc (fun h => h.relevance_score) (docCandidates query files)).filter
            (fun h => decide (h.relevance_score = k)) := by
        rw [search_docs]
        exact (List.take_prefix _ _).filter _
      have heq := filter_sortDesc (fun h : DocHit => h.relevance_score)
        (docCandidates query files) k
      rw [heq] at hpre
      exact hpre

/-- Witness for C3 at a concrete corpus: four files, one non-`.md`,
with a tie on score 1 kept in enumeration order. -/
theorem search_docs_ranked_c3_witness :
    (search_docs "database timeout" (some corpusW)).length ≤ 5 ∧
    List.map (fun h => (h.filename, h.relevance_score))
        (search_docs "database timeout" (some corpusW)) =
      [("a.md", 2), ("z.md", 1), ("b.md", 1)] :=
  ⟨(search_docs_ranked_c3 "database timeout" (some corpusW)).1, by decide⟩

/-- **C4 counterexample.** The query `"how"` consists of a single stop
word; under the claim it would contribute to no document's `matches`,
so no document could qualify.  In the code `search_docs` does not
filter stop words: the lone stop word is a keyword and yields a hit
with `relevance_score = 1`. -/
theorem docs_stopword_counterexample_c4 :
    "how" ∈ stop_words ∧
    _extract_keywords "how" = [] ∧
    docKeywords "how" = ["how"] ∧
    List.map (fun h => h.relevance_score)
        (search_docs "how" (some [("a.md", "how to reconnect")])) = [1] ∧
    search_docs "how" (some [("a.md", "how to reconnect")]) ≠ [] := by
  refine ⟨by decide, by decide, by decide, by decide, by decide⟩

/-- **C4 amended.** `search_docs` tokenizes the query with the same
3+-letter alphabetic extraction as the Keyword Extractor but does not
discard stop words: its keyword set consists of the extractor's
keywords together with every stop word extracted from the query, so a
stop word occurring in the query does count toward `matches` and
`relevance_score`. -/
theorem docs_keywords_amended_c4 (query : String) (w : String) :
    w ∈ docKeywords query ↔
      (w ∈ _extract_keywords query ∨ (w ∈ stop_words ∧ w ∈ findWords query)) := by
  rw [docKeywords, mem_dedupFirst, _extract_keywords]
  constructor
  · intro hw
    by_cases hs : w ∈ stop_words
    · exact Or.inr ⟨hs, hw⟩
    · refine Or.inl (List.mem_filter.mpr ⟨hw, ?_⟩)
      simp [hs]
  · rintro (hw | ⟨_, hw⟩)
    · exact (List.mem_filter.mp hw).1
    · exact hw

/-- **C10.** `search_docs` only examines corpus files whose name ends
in `".md"`: every returned hit's filename ends in `".md"`, and the
result is unchanged if the corpus listing is restricted to its `.md`
entries beforehand. -/
theorem md_only_c10 (query : String) :
    (∀ corpus, ∀ h ∈ search_docs query corpus,
        List.isSuffixOf ".md".toList h.filename.toList = true) ∧
    (∀ files, search_docs query (some files) = search_docs query (some (globMd files))) := by
  constructor
  · rintro (_ | files) h hh
    · simp [search_docs] at hh
    · exact (mem_docCandidates query files h (mem_search_docs query files h hh)).2
  · intro files
    have hglob : globMd (globMd files) = globMd files := by
      rw [globMd, globMd, List.filter_filter]
      simp
    rw [search_docs, search_docs, docCandidates, docCandidates, hglob]

/-- Witness for C10: the `.txt` entry of the concrete corpus is
invisible to `search_docs`. -/
theorem md_only_c10_witness :
    search_docs "database timeout" (some corpusW) =
      search_docs "database timeout" (some (globMd corpusW)) :=
  (md_only_c10 "database timeout").2 corpusW

/-! ## Claims C5, C6, C9: incident search -/

/-- The stored relevance score of a result record is exactly the
keyword count over its own searchable text (the searchable text does
not involve the `relevance_score` field). -/
theorem mkIncidentHit_score (kws : List String) (i : Incident) :
    (mkIncidentHit kws i).relevance_score =
      countKw kws (hitSearchable (mkIncidentHit kws i)).toList := rfl

/-- **C5.** For every query with a non-empty keyword set and every
storage state, `query_incidents` returns at most 5 hits, each hit's
`relevance_score` equals the count of query keywords occurring as
substrings of the lower-cased concatenation of the record's
string-valued fields, and the output is sorted by `relevance_score`
descending with ties broken by `created_at` descending. -/
theorem incidents_ranked_c5 (query : String) (db : List Incident)
    (hkw : docKeywords query ≠ []) :
    (query_incidents query db).length ≤ 5 ∧
    (∀ h ∈ query_incidents query db,
        h.relevance_score = countKw (docKeywords query) (hitSearchable h).toList) ∧
    (query_incidents query db).Pairwise (fun a b =>
        b.relevance_score < a.relevance_score ∨
        (b.relevance_score = a.relevance_score ∧ b.created_at ≤ a.created_at)) := by
  have hne : (docKeywords query).isEmpty = false := by
    cases hq : docKeywords query with
    | nil => exact absurd hq hkw
    | cons a l => rfl
  unfold query_incidents
  simp only [hne, Bool.false_eq_true, if_false]
  refine ⟨?_, ?_, ?_⟩
  · rw [List.length_take]
    exact min_le_left _ _
  · intro h hh
    have h1 := List.mem_of_mem_take hh
    rw [mem_sortDesc] at h1
    obtain ⟨i, _, heq⟩ := List.mem_map.mp h1
    rw [← heq]
    exact mkIncidentHit_score (docKeywords query) i
  · have hp := pairwise_sortDesc
      (fun h : IncidentHit => toLex (h.relevance_score, h.created_at))
      (((runOp db (DbOp.selectMatching (docKeywords query) 10)).1).map
        (mkIncidentHit (docKeywords query)))
    have hq := List.Pairwise.sublist (List.take_sublist 5 _) hp
    refine hq.imp ?_
    intro a b hab
    exact (Prod.Lex.le_iff _ _).mp hab

set_option maxHeartbeats 1000000 in
/-- Witness for C5: one incident of the concrete storage matches
`"database"`, with relevance 1. -/
theorem incidents_ranked_c5_witness :
    (query_incidents "database" dbW).length ≤ 5 ∧
    List.map (fun h => (h.id, h.relevance_score)) (query_incidents "database" dbW) =
      [("INC-1", 1)] :=
  ⟨(incidents_ranked_c5 "database" dbW (by decide)).1, by decide⟩

/-- With an empty keyword set every stored relevance score is 0. -/
theorem mkIncidentHit_nil_score (i : Incident) :
    (mkIncidentHit [] i).relevance_score = 0 := rfl

/-- Building a result record preserves the creation timestamp. -/
theorem mkIncidentHit_created_at (kws : List String) (i : Incident) :
    (mkIncidentHit kws i).created_at = i.created_at := rfl

/-- **C6.** For a query whose keyword set is empty, `query_incidents`
returns the 5 most-recently-created incidents — the recency-ordered
storage truncated to 5 — with no keyword filtering; each record is
built with the empty keyword set (so every relevance score is 0), and
the final `(score, created_at)` sort leaves the recency order
unchanged. -/
theorem incidents_recent_c6 (query : String) (db : List Incident)
    (hkw : docKeywords query = []) :
    query_incidents query db =
      ((sortDesc (fun i => i.created_at) db).take 5).map (mkIncidentHit []) := by
  unfold query_incidents
  rw [hkw]
  simp only [List.isEmpty_nil, if_true, runOp]
  have hsorted : (((sortDesc (fun i => i.created_at) db).take 5).map
      (mkIncidentHit [])).Pairwise (fun p q =>
        (toLex (q.relevance_score, q.created_at) : Nat ×ₗ Nat) ≤
          toLex (p.relevance_score, p.created_at)) := by
    rw [List.pairwise_map]
    have h1 : ((sortDesc (fun i => i.created_at) db).take 5).Pairwise
        (fun p q => q.created_at ≤ p.created_at) :=
      List.Pairwise.sublist (List.take_sublist 5 _)
        (pairwise_sortDesc (fun i : Incident => i.created_at) db)
    refine h1.imp ?_
    intro a b hab
    apply (Prod.Lex.le_iff _ _).mpr
    refine Or.inr ⟨?_, ?_⟩
    · rw [mkIncidentHit_nil_score, mkIncidentHit_nil_score]
    · rw [mkIncidentHit_created_at, mkIncidentHit_created_at]
      exact hab
  rw [sortDesc_eq_self _ _ hsorted]
  apply List.take_of_length_le
  rw [List.length_map, List.length_take]
  exact min_le_left _ _

/-- Witness for C6: the empty query against the concrete storage. -/
theorem incidents_recent_c6_witness :
    query_incidents "" dbW =
      ((sortDesc (fun i => i.created_at) dbW).take 5).map (mkIncidentHit []) :=
  incidents_recent_c6 "" dbW (by decide)

/-- **C9.** `query_incidents` never mutates the incident storage: the
single operation it issues is a `SELECT`, and running its operation
trace on any storage state returns that state unchanged. -/
theorem incidents_readonly_c9 (query : String) (db : List Incident) :
    runOps db (query_incidents_ops query) = db ∧
    (∀ op ∈ query_incidents_ops query, (runOp db op).2 = db) := by
  rw [query_incidents_ops]
  by_cases hq : (docKeywords query).isEmpty <;>
    simp [hq, runOps, runOp]

/-- Witness for C9 at a concrete query and storage. -/
theorem incidents_readonly_c9_witness :
    runOps dbW (query_incidents_ops "database") = dbW :=
  (incidents_readonly_c9 "database" dbW).1

/-! ## Claim C7: LLM-path fallback -/

/-- **C7.** With LLM-backed planning selected, any failure of the LLM
path — a missing credential, or any exception raised by the HTTP call,
status check, JSON decode or schema validation — makes `create_plan`
return the deterministic plan for the same text.  `create_plan` and
`_create_llm_plan` are total functions of the modelled outcome, so no
exception from the LLM path reaches the caller. -/
theorem llm_fallback_c7 (env : LlmEnv) (text : String)
    (hllm : env.use_real_llm = true)
    (hfail : env.api_key = none ∨ ∃ e, env.llm_response = Except.error e) :
    create_plan env text = _create_deterministic_plan text := by
  rw [create_plan, hllm]
  simp only [if_true]
  rcases hfail with hk | ⟨e, he⟩
  · rw [_create_llm_plan, hk]
  · rw [_create_llm_plan]
    cases hak : env.api_key with
    | none => rfl
    | some k => rw [he]

/-- Witness for C7: a present credential and a failing HTTP call. -/
theorem llm_fallback_c7_witness :
    create_plan ⟨true, some "sk-test", Except.error "http 500"⟩ "fix database timeout" =
      _create_deterministic_plan "fix database timeout" :=
  llm_fallback_c7 ⟨true, some "sk-test", Except.error "http 500"⟩ "fix database timeout"
    rfl (Or.inr ⟨"http 500", rfl⟩)

/-! ## Claim C8: failure handling in `process_request` -/

/-- **C8 counterexample.** A run in which planning succeeds and
execution raises: the exception is re-raised, but the plan of the
failed attempt is still persisted afterwards — `db.rollback()` cannot
undo the `db.commit()` that stored the plan (tasks.py lines 51-52)
before execution started.  This refutes the claim that no plan from
the failed attempt remains persisted. -/
theorem rollback_counterexample_c8 :
    c8_run.2 = Except.error "tool exception" ∧
    c8_run.1.committed.plan = some c8_plan ∧
    c8_run.1.committed.plan ≠ none := by
  refine ⟨rfl, rfl, by decide⟩

/-- **C8 amended.** If planning or execution raises inside
`process_request`, the pending (uncommitted) writes of the current
transaction are rolled back, the error message is persisted, the
status becomes `failed` with a completion time recorded, and the
exception is re-raised.  No result or tool-call log of the failed
attempt is persisted (none was committed before the failure), but the
plan — committed on its own before execution — survives an execution
failure. -/
theorem rollback_amended_c8 (r0 : RequestRow) (plan : AgentPlan)
    (x : ExecOutput) (e : String) (tS tD : Nat) :
    (process_request ⟨r0, r0⟩ (Except.error e) (Except.ok x) tS tD =
      (⟨{ r0 with status := ReqStatus.failed, started_at := some tS,
                  error := some e, completed_at := some tD },
        { r0 with status := ReqStatus.failed, started_at := some tS,
                  error := some e, completed_at := some tD }⟩, Except.error e)) ∧
    (process_request ⟨r0, r0⟩ (Except.ok plan) (Except.error e) tS tD =
      (⟨{ r0 with status := ReqStatus.failed, started_at := some tS, plan := some plan,
                  error := some e, completed_at := some tD },
        { r0 with status := ReqStatus.failed, started_at := some tS, plan := some plan,
                  error := some e, completed_at := some tD }⟩, Except.error e)) :=
  ⟨rfl, rfl⟩
